import Mathlib

/-!
Shallow embedding of the scene-batch-collection core of the rbfx renderer:
the scene Z-range accumulator, the transient drawable index and the bounded
per-drawable light accumulator from `Source/Urho3D/Graphics/SceneBatchCollector.h`,
and the fixed-function state-assembly rules of
`Source/Urho3D/RenderPipeline/PipelineStateBuilder.cpp`.

Machine `float` values appear only as ordered scalars (penalties, Z bounds,
depth-bias factors); they are embedded as exact rationals, which is faithful
because the embedded code performs no rounding-sensitive arithmetic on them
(only comparisons, copies, and the products stated by the spec itself).
-/

namespace Urho3D

/-- Modelled from the spec: `DrawableZRange` is `NumericRange<float>`
(`Source/Urho3D/Math/NumericRange.h`, not among the available sources):
a closed interval with an undefined/empty sentinel. -/
inductive DrawableZRange where
  | empty : DrawableZRange
  | interval (lo hi : ℚ) : DrawableZRange
deriving DecidableEq

/-- Modelled from the spec: the `operator |=` union of two `NumericRange` values,
combining two ranges order-independently; the empty sentinel is the unit. -/
def zUnion : DrawableZRange → DrawableZRange → DrawableZRange
  | DrawableZRange.empty, r => r
  | r, DrawableZRange.empty => r
  | DrawableZRange.interval a b, DrawableZRange.interval c d =>
      DrawableZRange.interval (min a c) (max b d)

/-- Merged value of a list of ranges, exactly as the loop in `SceneZRange::Get`
computes it: start from the default (empty) range and fold `|=` left to right. -/
def mergeList (l : List DrawableZRange) : DrawableZRange :=
  List.foldl zUnion DrawableZRange.empty l

/-- State of `SceneZRange` (SceneBatchCollector.h lines 42-79): one range per
worker-thread slot, the cached merged range, and the dirty flag. -/
structure SceneZRange where
  threadRanges_ : List DrawableZRange
  sceneRange_ : DrawableZRange
  sceneRangeDirty_ : Bool
deriving DecidableEq

/-- Embedding of `SceneZRange::Clear`: clear and resize the per-thread slots
(`resize` value-initializes, producing empty ranges) and mark the merged
value dirty.  The cached `sceneRange_` itself is not touched. -/
def SceneZRange.Clear (s : SceneZRange) (numThreads : ℕ) : SceneZRange :=
  { s with threadRanges_ := List.replicate numThreads DrawableZRange.empty,
           sceneRangeDirty_ := true }

/-- Embedding of `SceneZRange::Accumulate`: union the range into the slot of
the given thread.  The C++ indexes the vector unchecked; the out-of-bounds
case is made explicit as `none`. -/
def SceneZRange.Accumulate (s : SceneZRange) (threadIndex : ℕ) (range : DrawableZRange) :
    Option SceneZRange :=
  if h : threadIndex < s.threadRanges_.length then
    some { s with threadRanges_ :=
      s.threadRanges_.set threadIndex (zUnion (s.threadRanges_.get ⟨threadIndex, h⟩) range) }
  else
    none

/-- Embedding of `SceneZRange::Get`: if dirty, recompute the merged union from
the default range, cache it and clear the dirty flag; otherwise return the
cached value.  Returns the value together with the post-call state. -/
def SceneZRange.Get (s : SceneZRange) : DrawableZRange × SceneZRange :=
  if s.sceneRangeDirty_ then
    let merged := mergeList s.threadRanges_
    (merged, { s with sceneRange_ := merged, sceneRangeDirty_ := false })
  else
    (s.sceneRange_, s)

/-- Run a list of `Accumulate` calls in order; `none` as soon as one call
indexes out of bounds. -/
def SceneZRange.applyAccumulates (s : SceneZRange) :
    List (ℕ × DrawableZRange) → Option SceneZRange
  | [] => some s
  | p :: rest =>
    match s.Accumulate p.1 p.2 with
    | some s' => s'.applyAccumulates rest
    | none => none

/-- Calls available on `SceneZRange` within one `Clear` epoch. -/
inductive SceneZRangeCall where
  | accumulate (threadIndex : ℕ) (range : DrawableZRange) : SceneZRangeCall
  | get : SceneZRangeCall
deriving DecidableEq

/-- Run an interleaved list of `Accumulate` and `Get` calls; `none` as soon as
an `Accumulate` indexes out of bounds. -/
def SceneZRange.runCalls (s : SceneZRange) : List SceneZRangeCall → Option SceneZRange
  | [] => some s
  | SceneZRangeCall.accumulate ti r :: rest =>
    match s.Accumulate ti r with
    | some s' => s'.runCalls rest
    | none => none
  | SceneZRangeCall.get :: rest => (s.Get.2).runCalls rest

/-- Embedding of `eastl::vector::resize(n)`: truncate to `n` elements, or
append default-constructed elements up to `n`.  Existing elements keep
their values. -/
def listResize {α : Type} (l : List α) (n : ℕ) (dflt : α) : List α :=
  l.take n ++ List.replicate (n - l.length) dflt

/-- State of `TransientDrawableIndex` (SceneBatchCollector.h lines 82-110):
a trait bitmask and a Z-range per drawable, in two parallel arrays. -/
structure TransientDrawableIndex where
  traits_ : List ℕ
  zRange_ : List DrawableZRange
deriving DecidableEq

/-- Embedding of `TransientDrawableIndex::Reset`: resize `traits_` and fill
every entry with zero, and resize `zRange_` — note that the source does not
clear the existing `zRange_` entries, it only resizes the array. -/
def TransientDrawableIndex.Reset (idx : TransientDrawableIndex) (numDrawables : ℕ) :
    TransientDrawableIndex :=
  { traits_ := (listResize idx.traits_ numDrawables 0).map (fun _ => 0),
    zRange_ := listResize idx.zRange_ numDrawables DrawableZRange.empty }

/-- Modelled from the spec: `LightImportance` of `Source/Urho3D/Graphics/Light.h`
(not among the available sources); the accumulator only compares against
`LI_IMPORTANT`. -/
inductive LightImportance where
  | LI_AUTO : LightImportance
  | LI_IMPORTANT : LightImportance
  | LI_NOT_IMPORTANT : LightImportance
deriving DecidableEq

/-- Embedding of `DrawableLightDataAccumulationContext` (SceneBatchCollector.h
lines 142-152); the `lights_` back-pointer is omitted as `AccumulateLight`
never reads it. -/
structure DrawableLightDataAccumulationContext where
  maxPixelLights_ : ℕ
  lightImportance_ : LightImportance
  lightIndex_ : ℕ
deriving DecidableEq

/-- Modelled from the spec: `SphericalHarmonicsDot9`
(`Source/Urho3D/Math/SphericalHarmonics.h`, not among the available sources),
kept as an abstract scalar carrier; the embedded code never modifies it
(the fold of evicted lights is an uninvoked TODO in the source). -/
structure SphericalHarmonicsDot9 where
  coeff : ℚ
deriving DecidableEq

/-- Inline capacity of the light container, `DrawableLightData::NumElements`
(SceneBatchCollector.h line 161).  It only sizes the `fixed_vector` inline
storage; with overflow enabled it does not bound the container size. -/
def DrawableLightDataNumElements (MaxPixelLights MaxVertexLights : ℕ) : ℕ :=
  max (MaxPixelLights + 1) 4 + MaxVertexLights

/-- Embedding of `eastl::vector_map::emplace` on the penalty-keyed container
(`ea::vector_map<float, unsigned>`): insert the pair before the first entry
with a strictly greater key, unless an entry with an equal key already
exists, in which case the map is left unchanged (unique keys). -/
def vectorMapEmplace (key : ℚ) (value : ℕ) : List (ℚ × ℕ) → List (ℚ × ℕ)
  | [] => [(key, value)]
  | e :: rest =>
    if key < e.1 then (key, value) :: e :: rest
    else if e.1 < key then e :: vectorMapEmplace key value rest
    else e :: rest

/-- State of `DrawableLightData` (SceneBatchCollector.h lines 157-221).
The `MaxPixelLights` template argument only selects the inline capacity
`NumElements` and has no semantic effect; `MaxVertexLights` is passed to the
operations that use it. -/
structure DrawableLightData where
  lights_ : List (ℚ × ℕ)
  sh_ : SphericalHarmonicsDot9
  numImportantLights_ : ℕ
  firstVertexLight_ : ℕ
deriving DecidableEq

/-- Embedding of `DrawableLightData::Reset`: clear the container and the
important-light counter; `sh_` and `firstVertexLight_` are not touched. -/
def DrawableLightData.Reset (s : DrawableLightData) : DrawableLightData :=
  { s with lights_ := [], numImportantLights_ := 0 }

/-- Embedding of `DrawableLightData::AccumulateLight` (SceneBatchCollector.h
lines 176-196): force the penalty to -1 and bump the counter for an important
light, `emplace` into the penalty-ordered map, recompute `firstVertexLight_`,
and drop the highest-penalty entry if the size exceeds
`MaxVertexLights + firstVertexLight_` (the SH fold at that point is an
uninvoked TODO in the source, so `sh_` is unchanged). -/
def DrawableLightData.AccumulateLight (MaxVertexLights : ℕ) (s : DrawableLightData)
    (ctx : DrawableLightDataAccumulationContext) (penalty : ℚ) : DrawableLightData :=
  let penalty' := if ctx.lightImportance_ = LightImportance.LI_IMPORTANT then -1 else penalty
  let numImportant :=
    if ctx.lightImportance_ = LightImportance.LI_IMPORTANT then s.numImportantLights_ + 1
    else s.numImportantLights_
  let lights := vectorMapEmplace penalty' ctx.lightIndex_ s.lights_
  let firstVertexLight := max ctx.maxPixelLights_ numImportant
  let maxLights := MaxVertexLights + firstVertexLight
  let lights' := if maxLights < lights.length then lights.dropLast else lights
  { lights_ := lights', sh_ := s.sh_, numImportantLights_ := numImportant,
    firstVertexLight_ := firstVertexLight }

/-- Fold a list of `(context, penalty)` accumulation calls over a
`DrawableLightData` state, in call order. -/
def DrawableLightData.runAccumulate (MaxVertexLights : ℕ) (s : DrawableLightData)
    (calls : List (DrawableLightDataAccumulationContext × ℚ)) : DrawableLightData :=
  calls.foldl (fun acc c => acc.AccumulateLight MaxVertexLights c.1 c.2) s

/-- Zero spherical-harmonics term, used for concrete evaluation states. -/
def shZero : SphericalHarmonicsDot9 := ⟨0⟩

/-- Freshly constructed `DrawableLightData` with all fields default. -/
def emptyLightData : DrawableLightData := ⟨[], shZero, 0, 0⟩

/-- Modelled from the spec: `CullMode` of `Source/Urho3D/Graphics/GraphicsDefs.h`
(not among the available sources).  `MAX_CULLMODES` is the sentinel a material
pass uses for an unset cull mode. -/
inductive CullMode where
  | CULL_NONE : CullMode
  | CULL_CCW : CullMode
  | CULL_CW : CullMode
  | MAX_CULLMODES : CullMode
deriving DecidableEq

/-- Modelled from the spec: depth/stencil comparison functions of
`GraphicsDefs.h` (not among the available sources). -/
inductive CompareMode where
  | CMP_ALWAYS : CompareMode
  | CMP_EQUAL : CompareMode
  | CMP_NOTEQUAL : CompareMode
  | CMP_LESS : CompareMode
  | CMP_LESSEQUAL : CompareMode
  | CMP_GREATER : CompareMode
  | CMP_GREATEREQUAL : CompareMode
deriving DecidableEq

/-- Modelled from the spec: blend modes of `GraphicsDefs.h` (not among the
available sources); only the constructors the embedded rules mention. -/
inductive BlendMode where
  | BLEND_REPLACE : BlendMode
  | BLEND_ADD : BlendMode
  | BLEND_ALPHA : BlendMode
  | BLEND_SUBTRACT : BlendMode
deriving DecidableEq

/-- Modelled from the spec: light types of `Light.h` (not among the available
sources). -/
inductive LightType where
  | LIGHT_DIRECTIONAL : LightType
  | LIGHT_SPOT : LightType
  | LIGHT_POINT : LightType
deriving DecidableEq

/-- Modelled from the spec: the fixed portable-lightmask constant of
`GraphicsDefs.h` (not among the available sources); the light-volume rule
intersects the light's effective mask with it.  Its exact value does not
matter to the stated properties; an eight-bit stencil mask is used. -/
def PORTABLE_LIGHTMASK : ℕ := 255

/-- Modelled from the spec: `BiasParameters` of `Light.h` (not among the
available sources); only the two members the builder reads. -/
structure BiasParameters where
  constantBias_ : ℚ
  slopeScaledBias_ : ℚ
deriving DecidableEq

/-- Modelled from the spec: the members of `Light` that the pipeline-state
builder reads (`Light.h` is not among the available sources). -/
structure Light where
  lightType_ : LightType
  negative_ : Bool
  shadowBias_ : BiasParameters
  lightMaskEffective_ : ℕ
deriving DecidableEq

/-- Modelled from the spec: the cooked per-light parameters the shadow rule
reads (`LightProcessor.h` is not among the available sources): the per-split
depth-bias multipliers. -/
structure CookedLightParams where
  shadowDepthBiasMultiplier_ : List ℚ
deriving DecidableEq

/-- Modelled from the spec: the members of `LightProcessor` the builder reads:
the owned light, its cooked parameters, and the camera-overlap test result. -/
structure LightProcessor where
  light_ : Light
  params_ : CookedLightParams
  doesOverlapCamera_ : Bool
deriving DecidableEq

/-- Modelled from the spec: the members of `Material` the builder reads. -/
structure Material where
  cullMode_ : CullMode
  shadowCullMode_ : CullMode
  depthBias_ : BiasParameters
deriving DecidableEq

/-- Modelled from the spec: the members of a material `Pass` the builder
reads. -/
structure Pass where
  depthWrite_ : Bool
  depthTestMode_ : CompareMode
  cullMode_ : CullMode
deriving DecidableEq

/-- Fixed-function part of the pipeline-state descriptor: exactly the fields
the embedded state-assembly rules write. -/
structure PipelineStateDesc where
  colorWriteEnabled_ : Bool
  constantDepthBias_ : ℚ
  slopeScaledDepthBias_ : ℚ
  depthWriteEnabled_ : Bool
  depthCompareFunction_ : CompareMode
  cullMode_ : CullMode
  blendMode_ : BlendMode
  stencilTestEnabled_ : Bool
  stencilCompareFunction_ : CompareMode
  stencilCompareMask_ : ℕ
  stencilReferenceValue_ : ℕ
deriving DecidableEq

/-- Embedding of the one-argument `GetEffectiveCullMode`
(PipelineStateBuilder.cpp lines 50-56): identity unless the camera is
reversed and the mode is not `CULL_NONE`, in which case `CULL_CW` maps to
`CULL_CCW` and anything else maps to `CULL_CW`. -/
def GetEffectiveCullMode (mode : CullMode) (isCameraReversed : Bool) : CullMode :=
  if mode = CullMode.CULL_NONE ∨ isCameraReversed = false then mode
  else if mode = CullMode.CULL_CW then CullMode.CULL_CCW
  else CullMode.CULL_CW

/-- Embedding of the two-argument `GetEffectiveCullMode`
(PipelineStateBuilder.cpp lines 58-62): the pass cull mode wins unless it is
the `MAX_CULLMODES` sentinel, then apply the reversal rule. -/
def GetEffectiveCullModePassMaterial (passCullMode materialCullMode : CullMode)
    (isCameraReversed : Bool) : CullMode :=
  GetEffectiveCullMode
    (if passCullMode ≠ CullMode.MAX_CULLMODES then passCullMode else materialCullMode)
    isCameraReversed

/-- Embedding of `PipelineStateBuilder::ApplyShadowPass`
(PipelineStateBuilder.cpp lines 138-171).  `isCameraReversed` stands for the
builder's camera processor state, which this rule never consults: the cull
mode is resolved with the reversal flag hardwired to `false`. -/
def ApplyShadowPass (desc : PipelineStateDesc) (splitIndex : ℕ)
    (lightProcessor : LightProcessor) (material : Material) (materialPass : Pass)
    (enableVarianceShadowMaps : Bool) (isCameraReversed : Bool) : PipelineStateDesc :=
  let biasMultiplier := lightProcessor.params_.shadowDepthBiasMultiplier_.getD splitIndex 0
  let biasParameters := lightProcessor.light_.shadowBias_
  let d :=
    if enableVarianceShadowMaps then
      { desc with colorWriteEnabled_ := true, constantDepthBias_ := 0,
                  slopeScaledDepthBias_ := 0 }
    else
      { desc with colorWriteEnabled_ := false,
                  constantDepthBias_ := biasMultiplier * biasParameters.constantBias_,
                  slopeScaledDepthBias_ := biasMultiplier * biasParameters.slopeScaledBias_ }
  { d with depthWriteEnabled_ := materialPass.depthWrite_,
           depthCompareFunction_ := materialPass.depthTestMode_,
           cullMode_ := GetEffectiveCullModePassMaterial materialPass.cullMode_
             material.shadowCullMode_ false }

/-- Embedding of `PipelineStateBuilder::ApplyLightVolumePass`
(PipelineStateBuilder.cpp lines 173-203); `isCameraReversed` is the camera
processor state this rule does consult. -/
def ApplyLightVolumePass (desc : PipelineStateDesc) (lightProcessor : LightProcessor)
    (isCameraReversed : Bool) : PipelineStateDesc :=
  let light := lightProcessor.light_
  let d :=
    { desc with colorWriteEnabled_ := true,
                blendMode_ := if light.negative_ then BlendMode.BLEND_SUBTRACT
                              else BlendMode.BLEND_ADD }
  let d' :=
    if light.lightType_ ≠ LightType.LIGHT_DIRECTIONAL then
      if lightProcessor.doesOverlapCamera_ then
        { d with cullMode_ := GetEffectiveCullMode CullMode.CULL_CW isCameraReversed,
                 depthCompareFunction_ := CompareMode.CMP_GREATER }
      else
        { d with cullMode_ := GetEffectiveCullMode CullMode.CULL_CCW isCameraReversed,
                 depthCompareFunction_ := CompareMode.CMP_LESSEQUAL }
    else
      { d with cullMode_ := CullMode.CULL_NONE,
               depthCompareFunction_ := CompareMode.CMP_ALWAYS }
  { d' with stencilTestEnabled_ := true,
            stencilCompareFunction_ := CompareMode.CMP_NOTEQUAL,
            stencilCompareMask_ := Nat.land light.lightMaskEffective_ PORTABLE_LIGHTMASK,
            stencilReferenceValue_ := 0 }

/-- Boolean in-bounds check for one in-epoch call against a slot count. -/
def SceneZRangeCall.inBounds (n : ℕ) : SceneZRangeCall → Bool
  | SceneZRangeCall.accumulate ti _ => ti < n
  | SceneZRangeCall.get => true

/-- Concrete cleared pipeline-state descriptor used for evaluations. -/
def zeroPipelineStateDesc : PipelineStateDesc :=
  ⟨true, 0, 0, false, CompareMode.CMP_ALWAYS, CullMode.CULL_NONE, BlendMode.BLEND_REPLACE,
    false, CompareMode.CMP_ALWAYS, 0, 0⟩

/-- Concrete light with the spec's example shadow bias (constant 2.0, slope 0.5). -/
def shadowExampleLight : Light :=
  ⟨LightType.LIGHT_SPOT, false, ⟨2, 1/2⟩, 1⟩

/-- Concrete material whose own depth bias (7, 9) differs from the light's
shadow bias, separating the two candidate bias sources. -/
def shadowExampleMaterial : Material :=
  ⟨CullMode.CULL_CCW, CullMode.CULL_CCW, ⟨7, 9⟩⟩

/-- Concrete light processor with the spec's example split bias multiplier 1.5
in split 0. -/
def shadowExampleProcessor : LightProcessor :=
  ⟨shadowExampleLight, ⟨[3/2]⟩, false⟩

/-- Concrete material pass for the shadow-rule evaluations. -/
def shadowExamplePass : Pass :=
  ⟨true, CompareMode.CMP_LESSEQUAL, CullMode.MAX_CULLMODES⟩

/-- Call sequence on a `DrawableLightData<4,4>`-shaped accumulator: fourteen
ordinary lights accumulated under `maxPixelLights = 10`, then one more under
`maxPixelLights = 1`. -/
def c2OverflowCalls : List (DrawableLightDataAccumulationContext × ℚ) :=
  ((List.range 14).map
    (fun (i : ℕ) => (⟨10, LightImportance.LI_NOT_IMPORTANT, i⟩, (i : ℚ))))
    ++ [(⟨1, LightImportance.LI_NOT_IMPORTANT, 14⟩, 100)]

/-! Helper lemmas about the Z-range union and the `SceneZRange` operations. -/

theorem zUnion_empty_left (r : DrawableZRange) : zUnion DrawableZRange.empty r = r := by
  cases r <;> rfl

theorem zUnion_empty_right (r : DrawableZRange) : zUnion r DrawableZRange.empty = r := by
  cases r <;> rfl

theorem zUnion_comm (r₁ r₂ : DrawableZRange) : zUnion r₁ r₂ = zUnion r₂ r₁ := by
  cases r₁ <;> cases r₂ <;> simp [zUnion, min_comm, max_comm]

theorem zUnion_assoc (r₁ r₂ r₃ : DrawableZRange) :
    zUnion (zUnion r₁ r₂) r₃ = zUnion r₁ (zUnion r₂ r₃) := by
  cases r₁ <;> cases r₂ <;> cases r₃ <;> simp [zUnion, min_assoc, max_assoc]

theorem foldl_zUnion_eq (l : List DrawableZRange) :
    ∀ a : DrawableZRange, List.foldl zUnion a l = zUnion a (mergeList l) := by
  induction l with
  | nil => intro a; simp [mergeList, zUnion_empty_right]
  | cons h t ih =>
    intro a
    have hm : mergeList (h :: t) = zUnion h (mergeList t) := by
      simp only [mergeList, List.foldl_cons, zUnion_empty_left]
      exact ih h
    simp only [List.foldl_cons, hm, ih (zUnion a h), zUnion_assoc]

theorem mergeList_cons (a : DrawableZRange) (l : List DrawableZRange) :
    mergeList (a :: l) = zUnion a (mergeList l) := by
  simp only [mergeList, List.foldl_cons, zUnion_empty_left]
  exact foldl_zUnion_eq l a

theorem mergeList_replicate_empty (n : ℕ) :
    mergeList (List.replicate n DrawableZRange.empty) = DrawableZRange.empty := by
  induction n with
  | zero => rfl
  | succ m ih => simp [List.replicate_succ, mergeList_cons, zUnion_empty_left, ih]

theorem mergeList_set (l : List DrawableZRange) (i : ℕ) (r : DrawableZRange)
    (h : i < l.length) :
    mergeList (l.set i (zUnion (l.get ⟨i, h⟩) r)) = zUnion (mergeList l) r := by
  induction l generalizing i with
  | nil => simp at h
  | cons a t ih =>
    cases i with
    | zero =>
      simp only [List.get, List.set, mergeList_cons]
      rw [zUnion_assoc, zUnion_comm r (mergeList t), ← zUnion_assoc]
    | succ j =>
      have hj : j < t.length := by simpa using h
      simp only [List.get, List.set, mergeList_cons]
      rw [ih j hj, ← zUnion_assoc]

theorem mergeList_perm {l₁ l₂ : List DrawableZRange} (h : List.Perm l₁ l₂) :
    mergeList l₁ = mergeList l₂ := by
  haveI : RightCommutative zUnion := ⟨fun b a₁ a₂ => by
    rw [zUnion_assoc, zUnion_comm a₁ a₂, ← zUnion_assoc]⟩
  exact h.foldl_eq DrawableZRange.empty

theorem SceneZRange.Clear_threadRanges (s : SceneZRange) (n : ℕ) :
    (s.Clear n).threadRanges_ = List.replicate n DrawableZRange.empty := rfl

theorem SceneZRange.Get_snd_threadRanges (s : SceneZRange) :
    (s.Get.2).threadRanges_ = s.threadRanges_ := by
  by_cases h : s.sceneRangeDirty_ = true <;> simp [SceneZRange.Get, h]

theorem SceneZRange.Get_fst_of_dirty (s : SceneZRange) (h : s.sceneRangeDirty_ = true) :
    s.Get.1 = mergeList s.threadRanges_ := by
  simp [SceneZRange.Get, h]

theorem SceneZRange.Get_fst_of_clean (s : SceneZRange) (h : s.sceneRangeDirty_ = false) :
    s.Get.1 = s.sceneRange_ := by
  simp [SceneZRange.Get, h]

theorem SceneZRange.Get_snd_clean (s : SceneZRange) :
    (s.Get.2).sceneRangeDirty_ = false := by
  by_cases h : s.sceneRangeDirty_ = true <;> simp [SceneZRange.Get, h]

theorem SceneZRange.Get_snd_sceneRange_of_dirty (s : SceneZRange)
    (h : s.sceneRangeDirty_ = true) :
    (s.Get.2).sceneRange_ = mergeList s.threadRanges_ := by
  simp [SceneZRange.Get, h]

/-- Running a list of in-bounds `Accumulate` calls succeeds, preserves the
number of thread slots, dirty flag and cached value, and folds every range
into the merged union of the slots. -/
theorem SceneZRange.applyAccumulates_spec (ops : List (ℕ × DrawableZRange)) :
    ∀ s : SceneZRange, (∀ p ∈ ops, p.1 < s.threadRanges_.length) →
    ∃ s', s.applyAccumulates ops = some s'
      ∧ s'.threadRanges_.length = s.threadRanges_.length
      ∧ mergeList s'.threadRanges_
          = ops.foldl (fun acc p => zUnion acc p.2) (mergeList s.threadRanges_)
      ∧ s'.sceneRangeDirty_ = s.sceneRangeDirty_
      ∧ s'.sceneRange_ = s.sceneRange_ := by
  induction ops with
  | nil =>
    intro s _
    exact ⟨s, rfl, rfl, rfl, rfl, rfl⟩
  | cons p rest ih =>
    intro s hv
    have hp : p.1 < s.threadRanges_.length := hv p (List.mem_cons_self p rest)
    have hstep : s.Accumulate p.1 p.2 = some
        { s with
          threadRanges_ := s.threadRanges_.set p.1
            (zUnion (s.threadRanges_.get ⟨p.1, hp⟩) p.2) } := by
      simp [SceneZRange.Accumulate, hp]
    set s₁ : SceneZRange :=
        { s with
          threadRanges_ := s.threadRanges_.set p.1
            (zUnion (s.threadRanges_.get ⟨p.1, hp⟩) p.2) } with hs₁
    have hlen₁ : s₁.threadRanges_.length = s.threadRanges_.length := by
      simp [hs₁]
    have hrest : ∀ q ∈ rest, q.1 < s₁.threadRanges_.length := by
      intro q hq
      rw [hlen₁]
      exact hv q (List.mem_cons_of_mem p hq)
    obtain ⟨s', h₁, h₂, h₃, h₄, h₅⟩ := ih s₁ hrest
    refine ⟨s', ?_, ?_, ?_, h₄, h₅⟩
    · simp [SceneZRange.applyAccumulates, hstep, h₁]
    · rw [h₂, hlen₁]
    · rw [h₃, List.foldl_cons]
      have : mergeList s₁.threadRanges_ = zUnion (mergeList s.threadRanges_) p.2 := by
        simpa [hs₁] using mergeList_set s.threadRanges_ p.1 p.2 hp
      rw [this]

/-- Running a list of in-epoch calls succeeds as soon as every `Accumulate`
uses an in-bounds thread index, and preserves the number of thread slots. -/
theorem SceneZRange.runCalls_spec (ops : List SceneZRangeCall) :
    ∀ s : SceneZRange,
    (∀ ti r, SceneZRangeCall.accumulate ti r ∈ ops → ti < s.threadRanges_.length) →
    ∃ s', s.runCalls ops = some s'
      ∧ s'.threadRanges_.length = s.threadRanges_.length := by
  induction ops with
  | nil => intro s _; exact ⟨s, rfl, rfl⟩
  | cons c rest ih =>
    intro s hv
    cases c with
    | accumulate ti r =>
      have hti : ti < s.threadRanges_.length :=
        hv ti r (List.mem_cons_self _ rest)
      have hstep : s.Accumulate ti r = some
          { s with
            threadRanges_ := s.threadRanges_.set ti
              (zUnion (s.threadRanges_.get ⟨ti, hti⟩) r) } := by
        simp [SceneZRange.Accumulate, hti]
      set s₁ : SceneZRange :=
          { s with
            threadRanges_ := s.threadRanges_.set ti
              (zUnion (s.threadRanges_.get ⟨ti, hti⟩) r) } with hs₁
      have hlen₁ : s₁.threadRanges_.length = s.threadRanges_.length := by simp [hs₁]
      obtain ⟨s', h₁, h₂⟩ := ih s₁ (by
        intro ti' r' hm
        rw [hlen₁]
        exact hv ti' r' (List.mem_cons_of_mem _ hm))
      refine ⟨s', ?_, by rw [h₂, hlen₁]⟩
      simp [SceneZRange.runCalls, hstep, h₁]
    | get =>
      obtain ⟨s', h₁, h₂⟩ := ih s.Get.2 (by
        intro ti' r' hm
        rw [SceneZRange.Get_snd_threadRanges]
        exact hv ti' r' (List.mem_cons_of_mem _ hm))
      refine ⟨s', ?_, by rw [h₂, SceneZRange.Get_snd_threadRanges]⟩
      simp [SceneZRange.runCalls, h₁]

/-- Every state reached by running in-epoch calls keeps the slot count of the
starting state. -/
theorem SceneZRange.runCalls_length (ops : List SceneZRangeCall) :
    ∀ s s' : SceneZRange, s.runCalls ops = some s' →
    s'.threadRanges_.length = s.threadRanges_.length := by
  induction ops with
  | nil =>
    intro s s' h
    simp [SceneZRange.runCalls] at h
    rw [← h]
  | cons c rest ih =>
    intro s s' h
    cases c with
    | accumulate ti r =>
      by_cases hti : ti < s.threadRanges_.length
      · have hstep : s.Accumulate ti r = some
            { s with
              threadRanges_ := s.threadRanges_.set ti
                (zUnion (s.threadRanges_.get ⟨ti, hti⟩) r) } := by
          simp [SceneZRange.Accumulate, hti]
        rw [SceneZRange.runCalls, hstep] at h
        have := ih _ _ h
        simpa using this
      · have hstep : s.Accumulate ti r = none := by
          simp [SceneZRange.Accumulate, hti]
        rw [SceneZRange.runCalls, hstep] at h
        exact absurd h (by simp)
    | get =>
      rw [SceneZRange.runCalls] at h
      have := ih _ _ h
      rw [this, SceneZRange.Get_snd_threadRanges]

/-! Helper lemmas about the bounded light accumulator. -/

theorem vectorMapEmplace_length_le (key : ℚ) (value : ℕ) (l : List (ℚ × ℕ)) :
    (vectorMapEmplace key value l).length ≤ l.length + 1 := by
  induction l with
  | nil => simp [vectorMapEmplace]
  | cons e rest ih =>
    by_cases h₁ : key < e.1
    · simp [vectorMapEmplace, h₁]
    · by_cases h₂ : e.1 < key
      · simp only [vectorMapEmplace, if_neg h₁, if_pos h₂, List.length_cons]
        omega
      · simp only [vectorMapEmplace, if_neg h₁, if_neg h₂, List.length_cons]
        omega

theorem vectorMapEmplace_of_lt (key : ℚ) (value : ℕ) (l : List (ℚ × ℕ))
    (h : ∀ e ∈ l, key < e.1) : vectorMapEmplace key value l = (key, value) :: l := by
  cases l with
  | nil => rfl
  | cons e rest =>
    have he : key < e.1 := h e (List.mem_cons_self e rest)
    simp [vectorMapEmplace, he]

theorem accumulateLight_numImportant (V : ℕ) (s : DrawableLightData)
    (ctx : DrawableLightDataAccumulationContext) (p : ℚ) :
    (s.AccumulateLight V ctx p).numImportantLights_
      = (if ctx.lightImportance_ = LightImportance.LI_IMPORTANT
          then s.numImportantLights_ + 1 else s.numImportantLights_) := rfl

theorem accumulateLight_numImportant_mono (V : ℕ) (s : DrawableLightData)
    (ctx : DrawableLightDataAccumulationContext) (p : ℚ) :
    s.numImportantLights_ ≤ (s.AccumulateLight V ctx p).numImportantLights_ := by
  rw [accumulateLight_numImportant]
  by_cases h : ctx.lightImportance_ = LightImportance.LI_IMPORTANT <;> simp [h]

theorem accumulateLight_firstVertexLight (V : ℕ) (s : DrawableLightData)
    (ctx : DrawableLightDataAccumulationContext) (p : ℚ) :
    (s.AccumulateLight V ctx p).firstVertexLight_
      = max ctx.maxPixelLights_ (s.AccumulateLight V ctx p).numImportantLights_ := rfl

theorem accumulateLight_sh (V : ℕ) (s : DrawableLightData)
    (ctx : DrawableLightDataAccumulationContext) (p : ℚ) :
    (s.AccumulateLight V ctx p).sh_ = s.sh_ := rfl

/-- One `AccumulateLight` call preserves the size bound
`size ≤ max maxPixelLights numImportantLights + MaxVertexLights`, provided the
call's `maxPixelLights` is the `mpl` of the bound: the insertion grows the
container by at most one, the bound is nondecreasing, and an overflowing
container loses its last entry. -/
theorem accumulateLight_length_inv (V mpl : ℕ) (s : DrawableLightData)
    (ctx : DrawableLightDataAccumulationContext) (p : ℚ)
    (hctx : ctx.maxPixelLights_ = mpl)
    (h : s.lights_.length ≤ max mpl s.numImportantLights_ + V) :
    (s.AccumulateLight V ctx p).lights_.length
      ≤ max mpl (s.AccumulateLight V ctx p).numImportantLights_ + V := by
  have hnum : s.numImportantLights_ ≤ (s.AccumulateLight V ctx p).numImportantLights_ :=
    accumulateLight_numImportant_mono V s ctx p
  have hemp := vectorMapEmplace_length_le
    (if ctx.lightImportance_ = LightImportance.LI_IMPORTANT then -1 else p)
    ctx.lightIndex_ s.lights_
  set n' := (s.AccumulateLight V ctx p).numImportantLights_ with hn'
  have hle : max mpl s.numImportantLights_ ≤ max mpl n' := max_le_max (le_refl mpl) hnum
  have hniDef : n' = (if ctx.lightImportance_ = LightImportance.LI_IMPORTANT
      then s.numImportantLights_ + 1 else s.numImportantLights_) := by
    rw [hn']; rfl
  simp only [DrawableLightData.AccumulateLight]
  rw [hctx, ← hniDef]
  set A := max mpl s.numImportantLights_ with hA
  set B := max mpl n' with hB
  set L := (vectorMapEmplace
      (if ctx.lightImportance_ = LightImportance.LI_IMPORTANT then -1 else p)
      ctx.lightIndex_ s.lights_).length with hL
  by_cases hov : V + B < L
  · rw [if_pos hov]
    rw [List.length_dropLast]
    omega
  · rw [if_neg hov]
    omega

/-- Folding accumulation calls over a list is compositional. -/
theorem runAccumulate_append (V : ℕ) (s : DrawableLightData)
    (l₁ l₂ : List (DrawableLightDataAccumulationContext × ℚ)) :
    s.runAccumulate V (l₁ ++ l₂) = (s.runAccumulate V l₁).runAccumulate V l₂ := by
  simp [DrawableLightData.runAccumulate, List.foldl_append]

theorem runAccumulate_numImportant_mono (V : ℕ)
    (calls : List (DrawableLightDataAccumulationContext × ℚ)) :
    ∀ s : DrawableLightData,
    s.numImportantLights_ ≤ (s.runAccumulate V calls).numImportantLights_ := by
  induction calls with
  | nil => intro s; exact le_refl _
  | cons c rest ih =>
    intro s
    exact le_trans (accumulateLight_numImportant_mono V s c.1 c.2)
      (ih (s.AccumulateLight V c.1 c.2))

theorem runAccumulate_length_inv (V mpl : ℕ)
    (calls : List (DrawableLightDataAccumulationContext × ℚ)) :
    ∀ s : DrawableLightData, (∀ c ∈ calls, c.1.maxPixelLights_ = mpl) →
    s.lights_.length ≤ max mpl s.numImportantLights_ + V →
    (s.runAccumulate V calls).lights_.length
      ≤ max mpl (s.runAccumulate V calls).numImportantLights_ + V := by
  induction calls with
  | nil => intro s _ h; exact h
  | cons c rest ih =>
    intro s hmpl h
    exact ih (s.AccumulateLight V c.1 c.2)
      (fun c' hc' => hmpl c' (List.mem_cons_of_mem c hc'))
      (accumulateLight_length_inv V mpl s c.1 c.2
        (hmpl c (List.mem_cons_self c rest)) h)

/-- In a strictly ascending association list the last entry carries the
greatest key. -/
theorem pairwise_le_getLast (l : List (ℚ × ℕ))
    (hl : l.Pairwise (fun a b => a.1 < b.1)) (hne : l ≠ []) :
    ∀ e ∈ l, e.1 ≤ (l.getLast hne).1 := by
  induction l with
  | nil => exact absurd rfl hne
  | cons a t ih =>
    intro e he
    cases t with
    | nil =>
      simp only [List.mem_singleton] at he
      simp [he, List.getLast]
    | cons b t' =>
      have hne' : b :: t' ≠ [] := by simp
      rw [List.getLast_cons hne']
      rcases List.mem_cons.mp he with rfl | he'
      · have hab : ∀ x ∈ b :: t', e.1 < x.1 := by
          intro x hx
          exact (List.pairwise_cons.mp hl).1 x hx
        exact le_of_lt (hab _ (List.getLast_mem hne'))
      · exact ih (List.pairwise_cons.mp hl).2 hne' e he'

/-! Claim theorems. -/

/-- C9: `GetEffectiveCullMode` returns its input whenever the camera is not
reversed; `CULL_NONE` is never flipped even under reversal; and under
reversal `CULL_CW` maps to `CULL_CCW` and `CULL_CCW` maps to `CULL_CW`. -/
theorem getEffectiveCullMode_reversal_spec :
    ∀ (m : CullMode) (r : Bool),
      GetEffectiveCullMode m false = m
      ∧ GetEffectiveCullMode CullMode.CULL_NONE r = CullMode.CULL_NONE
      ∧ GetEffectiveCullMode CullMode.CULL_CW true = CullMode.CULL_CCW
      ∧ GetEffectiveCullMode CullMode.CULL_CCW true = CullMode.CULL_CW := by
  intro m r
  cases m <;> cases r <;> exact ⟨rfl, rfl, rfl, rfl⟩

/-- C8: the light-volume rule always enables the stencil test with compare
function not-equal, compare mask equal to the light's effective mask
intersected with the portable-lightmask constant, and reference value zero;
a non-directional, non-overlapping, non-negative light gets additive
blending, back-face culling (`CULL_CCW`, subject to the camera-reversal
flip) and a less-or-equal depth test; an overlapping non-directional light
gets front-face culling (`CULL_CW`, subject to the flip) and a greater depth
test; a directional light gets no culling and an always-passing depth test. -/
theorem applyLightVolumePass_spec (desc : PipelineStateDesc) (params : CookedLightParams)
    (bias : BiasParameters) (mask : ℕ) (neg overlap r : Bool) (t : LightType) :
    ((ApplyLightVolumePass desc ⟨⟨t, neg, bias, mask⟩, params, overlap⟩ r).stencilTestEnabled_
          = true
      ∧ (ApplyLightVolumePass desc ⟨⟨t, neg, bias, mask⟩, params, overlap⟩
          r).stencilCompareFunction_ = CompareMode.CMP_NOTEQUAL
      ∧ (ApplyLightVolumePass desc ⟨⟨t, neg, bias, mask⟩, params, overlap⟩
          r).stencilCompareMask_ = Nat.land mask PORTABLE_LIGHTMASK
      ∧ (ApplyLightVolumePass desc ⟨⟨t, neg, bias, mask⟩, params, overlap⟩
          r).stencilReferenceValue_ = 0)
    ∧ ((ApplyLightVolumePass desc ⟨⟨LightType.LIGHT_POINT, false, bias, mask⟩, params, false⟩
          r).blendMode_ = BlendMode.BLEND_ADD
      ∧ (ApplyLightVolumePass desc ⟨⟨LightType.LIGHT_POINT, false, bias, mask⟩, params, false⟩
          r).cullMode_ = GetEffectiveCullMode CullMode.CULL_CCW r
      ∧ (ApplyLightVolumePass desc ⟨⟨LightType.LIGHT_POINT, false, bias, mask⟩, params, false⟩
          r).depthCompareFunction_ = CompareMode.CMP_LESSEQUAL)
    ∧ ((ApplyLightVolumePass desc ⟨⟨LightType.LIGHT_SPOT, false, bias, mask⟩, params, false⟩
          r).blendMode_ = BlendMode.BLEND_ADD
      ∧ (ApplyLightVolumePass desc ⟨⟨LightType.LIGHT_SPOT, false, bias, mask⟩, params, false⟩
          r).cullMode_ = GetEffectiveCullMode CullMode.CULL_CCW r
      ∧ (ApplyLightVolumePass desc ⟨⟨LightType.LIGHT_SPOT, false, bias, mask⟩, params, false⟩
          r).depthCompareFunction_ = CompareMode.CMP_LESSEQUAL)
    ∧ ((ApplyLightVolumePass desc ⟨⟨LightType.LIGHT_POINT, neg, bias, mask⟩, params, true⟩
          r).cullMode_ = GetEffectiveCullMode CullMode.CULL_CW r
      ∧ (ApplyLightVolumePass desc ⟨⟨LightType.LIGHT_POINT, neg, bias, mask⟩, params, true⟩
          r).depthCompareFunction_ = CompareMode.CMP_GREATER)
    ∧ ((ApplyLightVolumePass desc ⟨⟨LightType.LIGHT_SPOT, neg, bias, mask⟩, params, true⟩
          r).cullMode_ = GetEffectiveCullMode CullMode.CULL_CW r
      ∧ (ApplyLightVolumePass desc ⟨⟨LightType.LIGHT_SPOT, neg, bias, mask⟩, params, true⟩
          r).depthCompareFunction_ = CompareMode.CMP_GREATER)
    ∧ ((ApplyLightVolumePass desc ⟨⟨LightType.LIGHT_DIRECTIONAL, neg, bias, mask⟩, params,
          overlap⟩ r).cullMode_ = CullMode.CULL_NONE
      ∧ (ApplyLightVolumePass desc ⟨⟨LightType.LIGHT_DIRECTIONAL, neg, bias, mask⟩, params,
          overlap⟩ r).depthCompareFunction_ = CompareMode.CMP_ALWAYS) := by
  cases t <;> cases neg <;> cases overlap <;>
    simp [ApplyLightVolumePass]

/-- C7 counterexample: the claim derives the shadow depth bias from the
material's depth bias, but with the light's shadow bias at (2, 1/2), a split
multiplier of 3/2 and a material depth bias of (7, 9), the rule produces a
constant depth bias of 3 = 3/2 * 2, not 3/2 * 7 = 21/2. -/
theorem applyShadowPass_material_bias_counterexample :
    (ApplyShadowPass zeroPipelineStateDesc 0 shadowExampleProcessor shadowExampleMaterial
        shadowExamplePass false false).constantDepthBias_ = 3
    ∧ (3/2 : ℚ) * shadowExampleMaterial.depthBias_.constantBias_ = 21/2
    ∧ (3 : ℚ) ≠ 21/2 := by
  refine ⟨?_, ?_, by norm_num⟩
  · norm_num [ApplyShadowPass, shadowExampleProcessor, shadowExampleLight,
      zeroPipelineStateDesc]
  · norm_num [shadowExampleMaterial]

/-- C7 amended: with variance shadow maps disabled the shadow rule disables
color write and sets both depth biases to the per-split multiplier times the
light's shadow-bias parameters (not the material's depth bias) — at the
spec's example values, light shadow bias (2, 1/2) and multiplier 3/2 yield
(3, 3/4); with variance shadow maps enabled it enables color write and zeroes
both biases; in both modes the cull mode is the pass/material-shadow cull
mode resolved with the camera-reversal flip hardwired off, and the result is
independent of the camera-reversal flag. -/
theorem applyShadowPass_spec (desc : PipelineStateDesc) (splitIndex : ℕ)
    (lp : LightProcessor) (material : Material) (materialPass : Pass) (r r' : Bool) :
    ((ApplyShadowPass desc splitIndex lp material materialPass false r).colorWriteEnabled_
        = false
      ∧ (ApplyShadowPass desc splitIndex lp material materialPass false r).constantDepthBias_
        = (lp.params_.shadowDepthBiasMultiplier_.getD splitIndex 0)
            * lp.light_.shadowBias_.constantBias_
      ∧ (ApplyShadowPass desc splitIndex lp material materialPass false
          r).slopeScaledDepthBias_
        = (lp.params_.shadowDepthBiasMultiplier_.getD splitIndex 0)
            * lp.light_.shadowBias_.slopeScaledBias_)
    ∧ ((ApplyShadowPass desc splitIndex lp material materialPass true r).colorWriteEnabled_
        = true
      ∧ (ApplyShadowPass desc splitIndex lp material materialPass true r).constantDepthBias_
        = 0
      ∧ (ApplyShadowPass desc splitIndex lp material materialPass true
          r).slopeScaledDepthBias_ = 0)
    ∧ (ApplyShadowPass desc splitIndex lp material materialPass false r).cullMode_
        = GetEffectiveCullModePassMaterial materialPass.cullMode_ material.shadowCullMode_
            false
    ∧ (ApplyShadowPass desc splitIndex lp material materialPass true r).cullMode_
        = GetEffectiveCullModePassMaterial materialPass.cullMode_ material.shadowCullMode_
            false
    ∧ (∀ vsm : Bool, ApplyShadowPass desc splitIndex lp material materialPass vsm r
        = ApplyShadowPass desc splitIndex lp material materialPass vsm r')
    ∧ ((ApplyShadowPass zeroPipelineStateDesc 0 shadowExampleProcessor shadowExampleMaterial
          shadowExamplePass false r).constantDepthBias_ = 3
      ∧ (ApplyShadowPass zeroPipelineStateDesc 0 shadowExampleProcessor shadowExampleMaterial
          shadowExamplePass false r).slopeScaledDepthBias_ = 3/4
      ∧ (ApplyShadowPass zeroPipelineStateDesc 0 shadowExampleProcessor shadowExampleMaterial
          shadowExamplePass false r).colorWriteEnabled_ = false) := by
  refine ⟨⟨rfl, rfl, rfl⟩, ⟨rfl, rfl, rfl⟩, rfl, rfl, fun vsm => rfl, ?_, ?_, rfl⟩
  · norm_num [ApplyShadowPass, shadowExampleProcessor, shadowExampleLight,
      zeroPipelineStateDesc]
  · norm_num [ApplyShadowPass, shadowExampleProcessor, shadowExampleLight,
      zeroPipelineStateDesc]

/-- C1: evaluating `AccumulateLight` at the failing input — two lights both
flagged important, indices 0 and 1, accumulated after `Reset` on a
`DrawableLightData<4,4>` accumulator — leaves only the first important light
in the container: both are forced to the same penalty key -1, the container
is a unique-key `vector_map`, so the second `emplace` is rejected even
though the important-light counter still counts it. -/
theorem drawableLightData_important_collision :
    ((emptyLightData.Reset.AccumulateLight 4 ⟨4, LightImportance.LI_IMPORTANT, 0⟩ 10
        ).AccumulateLight 4 ⟨4, LightImportance.LI_IMPORTANT, 1⟩ 20).lights_ = [(-1, 0)]
    ∧ ((emptyLightData.Reset.AccumulateLight 4 ⟨4, LightImportance.LI_IMPORTANT, 0⟩ 10
        ).AccumulateLight 4 ⟨4, LightImportance.LI_IMPORTANT, 1⟩ 20).numImportantLights_ = 2
    ∧ ∀ e ∈ ((emptyLightData.Reset.AccumulateLight 4
          ⟨4, LightImportance.LI_IMPORTANT, 0⟩ 10
        ).AccumulateLight 4 ⟨4, LightImportance.LI_IMPORTANT, 1⟩ 20).lights_,
        e.2 ≠ 1 := by
  decide

/-- C2 counterexample: on a `DrawableLightData<4,4>`-shaped accumulator, after
fourteen distinct-penalty ordinary lights under `maxPixelLights = 10`
followed by one light under `maxPixelLights = 1`, the container holds 14
entries while the claimed bound for the most recent call's context is
`max(1, 0) + 4 = 5`: a single `pop_back` cannot restore the bound when
`maxPixelLights` shrinks between calls. -/
theorem drawableLightData_size_bound_counterexample :
    (c2OverflowCalls.map (fun c => c.1.maxPixelLights_)).getLast? = some 1
    ∧ (emptyLightData.Reset.runAccumulate 4 c2OverflowCalls).lights_.length = 14
    ∧ max 1 (emptyLightData.Reset.runAccumulate 4 c2OverflowCalls).numImportantLights_ + 4
        = 5
    ∧ ¬((emptyLightData.Reset.runAccumulate 4 c2OverflowCalls).lights_.length
        ≤ max 1 (emptyLightData.Reset.runAccumulate 4 c2OverflowCalls).numImportantLights_
            + 4) := by
  decide

/-- C2 amended: when all calls of the sequence share the same
`maxPixelLights`, then after each call the container size is bounded by
`max(maxPixelLights, numImportantLights_) + MaxVertexLights` (without that
restriction the bound fails, see the counterexample), `firstVertexLight_`
equals `max(maxPixelLights, numImportantLights_)`, and
`numImportantLights_` does not decrease from the previous call. -/
theorem drawableLightData_bound_invariants (V mpl k : ℕ) (s₀ : DrawableLightData)
    (calls : List (DrawableLightDataAccumulationContext × ℚ))
    (hmpl : ∀ c ∈ calls, c.1.maxPixelLights_ = mpl)
    (hk₁ : 1 ≤ k) (hk₂ : k ≤ calls.length) :
    (s₀.Reset.runAccumulate V (calls.take k)).lights_.length
      ≤ max mpl (s₀.Reset.runAccumulate V (calls.take k)).numImportantLights_ + V
    ∧ (s₀.Reset.runAccumulate V (calls.take k)).firstVertexLight_
      = max mpl (s₀.Reset.runAccumulate V (calls.take k)).numImportantLights_
    ∧ (s₀.Reset.runAccumulate V (calls.take (k - 1))).numImportantLights_
      ≤ (s₀.Reset.runAccumulate V (calls.take k)).numImportantLights_ := by
  obtain ⟨m, rfl⟩ : ∃ m, k = m + 1 := ⟨k - 1, by omega⟩
  have hm : m < calls.length := by omega
  have htake : calls.take (m + 1) = calls.take m ++ [calls.get ⟨m, hm⟩] := by
    rw [List.take_succ, List.getElem?_eq_getElem hm]
    rfl
  have hc : calls.get ⟨m, hm⟩ ∈ calls := List.get_mem calls m hm
  have hcm : (calls.get ⟨m, hm⟩).1.maxPixelLights_ = mpl := hmpl _ hc
  have hsplit : s₀.Reset.runAccumulate V (calls.take (m + 1))
      = (s₀.Reset.runAccumulate V (calls.take m)).AccumulateLight V
          (calls.get ⟨m, hm⟩).1 (calls.get ⟨m, hm⟩).2 := by
    rw [htake, runAccumulate_append]
    rfl
  refine ⟨?_, ?_, ?_⟩
  · exact runAccumulate_length_inv V mpl (calls.take (m + 1)) s₀.Reset
      (fun c hc' => hmpl c (List.mem_of_mem_take hc'))
      (by simp [DrawableLightData.Reset])
  · rw [hsplit, accumulateLight_firstVertexLight, hcm]
  · simp only [Nat.add_sub_cancel]
    rw [hsplit]
    exact accumulateLight_numImportant_mono V _ _ _

/-- Witness for the amended C2 invariants at a concrete two-call sequence. -/
theorem drawableLightData_bound_invariants_witness :
    (∀ c ∈ ([(⟨4, LightImportance.LI_IMPORTANT, 0⟩, (5 : ℚ)),
          (⟨4, LightImportance.LI_NOT_IMPORTANT, 1⟩, (7 : ℚ))] :
        List (DrawableLightDataAccumulationContext × ℚ)), c.1.maxPixelLights_ = 4)
    ∧ 1 ≤ 2
    ∧ 2 ≤ ([(⟨4, LightImportance.LI_IMPORTANT, 0⟩, (5 : ℚ)),
          (⟨4, LightImportance.LI_NOT_IMPORTANT, 1⟩, (7 : ℚ))] :
        List (DrawableLightDataAccumulationContext × ℚ)).length
    ∧ ((emptyLightData.Reset.runAccumulate 4
          (([(⟨4, LightImportance.LI_IMPORTANT, 0⟩, (5 : ℚ)),
            (⟨4, LightImportance.LI_NOT_IMPORTANT, 1⟩, (7 : ℚ))] :
          List (DrawableLightDataAccumulationContext × ℚ)).take 2)).lights_.length
        ≤ max 4 (emptyLightData.Reset.runAccumulate 4
          (([(⟨4, LightImportance.LI_IMPORTANT, 0⟩, (5 : ℚ)),
            (⟨4, LightImportance.LI_NOT_IMPORTANT, 1⟩, (7 : ℚ))] :
          List (DrawableLightDataAccumulationContext × ℚ)).take 2)).numImportantLights_ + 4
      ∧ (emptyLightData.Reset.runAccumulate 4
          (([(⟨4, LightImportance.LI_IMPORTANT, 0⟩, (5 : ℚ)),
            (⟨4, LightImportance.LI_NOT_IMPORTANT, 1⟩, (7 : ℚ))] :
          List (DrawableLightDataAccumulationContext × ℚ)).take 2)).firstVertexLight_
        = max 4 (emptyLightData.Reset.runAccumulate 4
          (([(⟨4, LightImportance.LI_IMPORTANT, 0⟩, (5 : ℚ)),
            (⟨4, LightImportance.LI_NOT_IMPORTANT, 1⟩, (7 : ℚ))] :
          List (DrawableLightDataAccumulationContext × ℚ)).take 2)).numImportantLights_
      ∧ (emptyLightData.Reset.runAccumulate 4
          (([(⟨4, LightImportance.LI_IMPORTANT, 0⟩, (5 : ℚ)),
            (⟨4, LightImportance.LI_NOT_IMPORTANT, 1⟩, (7 : ℚ))] :
          List (DrawableLightDataAccumulationContext × ℚ)).take (2 - 1))).numImportantLights_
        ≤ (emptyLightData.Reset.runAccumulate 4
          (([(⟨4, LightImportance.LI_IMPORTANT, 0⟩, (5 : ℚ)),
            (⟨4, LightImportance.LI_NOT_IMPORTANT, 1⟩, (7 : ℚ))] :
          List (DrawableLightDataAccumulationContext × ℚ)).take 2)).numImportantLights_) :=
  ⟨by decide, by decide, by decide,
    drawableLightData_bound_invariants 4 4 2 emptyLightData
      ([(⟨4, LightImportance.LI_IMPORTANT, 0⟩, (5 : ℚ)),
        (⟨4, LightImportance.LI_NOT_IMPORTANT, 1⟩, (7 : ℚ))])
      (by decide) (by decide) (by decide)⟩

/-- C3 counterexample: on an accumulator at capacity
(`size = MaxVertexLights + firstVertexLight_`, here 2 = 0 + 2), an important
light's effective penalty -1 is lower than every current entry's penalty,
yet the call evicts nothing: the important light raises the recomputed split
boundary `max(maxPixelLights, numImportantLights)` to 3 > 2, so the size
check passes and the highest-penalty entry (3, 6) stays in the container,
contradicting the claimed unconditional eviction. -/
theorem drawableLightData_no_eviction_counterexample :
    (DrawableLightData.mk [((2 : ℚ), 5), (3, 6)] shZero 0 2).lights_.length
        = 0 + (DrawableLightData.mk [((2 : ℚ), 5), (3, 6)] shZero 0 2).firstVertexLight_
    ∧ (∀ e ∈ (DrawableLightData.mk [((2 : ℚ), 5), (3, 6)] shZero 0 2).lights_,
        (-1 : ℚ) < e.1)
    ∧ ((DrawableLightData.mk [((2 : ℚ), 5), (3, 6)] shZero 0 2).AccumulateLight 0
          ⟨3, LightImportance.LI_IMPORTANT, 9⟩ 7).lights_ = [(-1, 9), (2, 5), (3, 6)]
    ∧ ((3 : ℚ), 6) ∈ ((DrawableLightData.mk [((2 : ℚ), 5), (3, 6)] shZero 0
          2).AccumulateLight 0 ⟨3, LightImportance.LI_IMPORTANT, 9⟩ 7).lights_
    ∧ ((DrawableLightData.mk [((2 : ℚ), 5), (3, 6)] shZero 0 2).AccumulateLight 0
          ⟨3, LightImportance.LI_IMPORTANT, 9⟩ 7).lights_.length = 3 := by
  decide

/-- C3 amended: on a strictly penalty-sorted accumulator at capacity
(`size = MaxVertexLights + firstVertexLight_`), a call whose effective
penalty is lower than every current entry's penalty evicts, provided the
recomputed split boundary `max(ctx.maxPixelLights, numImportantLights)` does
not exceed the current `firstVertexLight_`: the new light is inserted in
front, exactly the last — highest-penalty — entry is removed, and the
spherical-harmonics term `sh_` is unchanged.  When the recomputed boundary
exceeds the current one no entry is evicted (see the counterexample). -/
theorem drawableLightData_eviction_at_capacity
    (V : ℕ) (s : DrawableLightData) (ctx : DrawableLightDataAccumulationContext) (p : ℚ)
    (hsorted : List.Pairwise (fun a b => a.1 < b.1) s.lights_)
    (hne : s.lights_ ≠ [])
    (hcap : s.lights_.length = V + s.firstVertexLight_)
    (hlow : ∀ e ∈ s.lights_,
      (if ctx.lightImportance_ = LightImportance.LI_IMPORTANT then (-1 : ℚ) else p) < e.1)
    (hboundary : max ctx.maxPixelLights_
        (if ctx.lightImportance_ = LightImportance.LI_IMPORTANT
          then s.numImportantLights_ + 1 else s.numImportantLights_)
        ≤ s.firstVertexLight_) :
    (s.AccumulateLight V ctx p).lights_
        = ((if ctx.lightImportance_ = LightImportance.LI_IMPORTANT then (-1 : ℚ) else p),
            ctx.lightIndex_) :: s.lights_.dropLast
    ∧ (∀ e ∈ s.lights_, e.1 ≤ (s.lights_.getLast hne).1)
    ∧ (s.AccumulateLight V ctx p).sh_ = s.sh_ := by
  refine ⟨?_, pairwise_le_getLast s.lights_ hsorted hne, rfl⟩
  have hemp : vectorMapEmplace
      (if ctx.lightImportance_ = LightImportance.LI_IMPORTANT then (-1 : ℚ) else p)
      ctx.lightIndex_ s.lights_
      = ((if ctx.lightImportance_ = LightImportance.LI_IMPORTANT then (-1 : ℚ) else p),
          ctx.lightIndex_) :: s.lights_ :=
    vectorMapEmplace_of_lt _ _ _ hlow
  simp only [DrawableLightData.AccumulateLight, hemp]
  have hcond : V + max ctx.maxPixelLights_
      (if ctx.lightImportance_ = LightImportance.LI_IMPORTANT
        then s.numImportantLights_ + 1 else s.numImportantLights_)
      < (((if ctx.lightImportance_ = LightImportance.LI_IMPORTANT then (-1 : ℚ) else p),
          ctx.lightIndex_) :: s.lights_).length := by
    rw [List.length_cons, hcap]
    omega
  rw [if_pos hcond]
  obtain ⟨b, t, hbt⟩ := List.exists_cons_of_ne_nil hne
  rw [hbt]
  exact List.dropLast_cons₂

/-- Witness for the C3 eviction theorem at a concrete saturated state. -/
theorem drawableLightData_eviction_at_capacity_witness :
    List.Pairwise (fun a b => a.1 < b.1)
      (DrawableLightData.mk [((2 : ℚ), 5), (3, 6)] shZero 0 1).lights_
    ∧ (DrawableLightData.mk [((2 : ℚ), 5), (3, 6)] shZero 0 1).lights_ ≠ []
    ∧ (DrawableLightData.mk [((2 : ℚ), 5), (3, 6)] shZero 0 1).lights_.length
        = 1 + (DrawableLightData.mk [((2 : ℚ), 5), (3, 6)] shZero 0 1).firstVertexLight_
    ∧ (∀ e ∈ (DrawableLightData.mk [((2 : ℚ), 5), (3, 6)] shZero 0 1).lights_,
        (if (DrawableLightDataAccumulationContext.mk 1
            LightImportance.LI_NOT_IMPORTANT 9).lightImportance_
            = LightImportance.LI_IMPORTANT then (-1 : ℚ) else 0) < e.1)
    ∧ ((DrawableLightData.mk [((2 : ℚ), 5), (3, 6)] shZero 0 1).AccumulateLight 1
          ⟨1, LightImportance.LI_NOT_IMPORTANT, 9⟩ 0).lights_
        = ((if (DrawableLightDataAccumulationContext.mk 1
            LightImportance.LI_NOT_IMPORTANT 9).lightImportance_
            = LightImportance.LI_IMPORTANT then (-1 : ℚ) else 0), 9)
          :: (DrawableLightData.mk [((2 : ℚ), 5), (3, 6)] shZero 0 1).lights_.dropLast := by
  refine ⟨by decide, by decide, by decide, by decide, ?_⟩
  exact (drawableLightData_eviction_at_capacity 1
    (DrawableLightData.mk [((2 : ℚ), 5), (3, 6)] shZero 0 1)
    ⟨1, LightImportance.LI_NOT_IMPORTANT, 9⟩ 0
    (by decide) (by decide) (by decide) (by decide) (by decide)).1

/-- Length of a resized list is the requested length. -/
theorem listResize_length {α : Type} (l : List α) (n : ℕ) (dflt : α) :
    (listResize l n dflt).length = n := by
  simp only [listResize, List.length_append, List.length_take, List.length_replicate]
  omega

/-- C6 counterexample: `Reset` does not clear the per-drawable Z-ranges — a
prior non-empty Z-range entry survives `Reset(1)` unchanged, so not every
Z-range is the default/empty range afterwards. -/
theorem transientIndex_stale_zrange_counterexample :
    ((TransientDrawableIndex.mk [5] [DrawableZRange.interval 1 2]).Reset 1).zRange_
        = [DrawableZRange.interval 1 2]
    ∧ DrawableZRange.interval 1 2 ≠ DrawableZRange.empty := by
  decide

/-- C6 amended: after `Reset(n)` both arrays have exactly `n` entries and
every trait bitmask is zero, but the Z-range array is only resized: entries
below the prior array length keep their previous values (they are invalid
until the drawable is updated), and only entries appended beyond the prior
length are the default/empty range. -/
theorem transientDrawableIndex_reset_spec (idx : TransientDrawableIndex) (n : ℕ) :
    (idx.Reset n).traits_ = List.replicate n 0
    ∧ (idx.Reset n).traits_.length = n
    ∧ (idx.Reset n).zRange_.length = n
    ∧ (idx.Reset n).zRange_
        = idx.zRange_.take n
          ++ List.replicate (n - idx.zRange_.length) DrawableZRange.empty := by
  have h1 : (idx.Reset n).traits_ = List.replicate n 0 := by
    show (listResize idx.traits_ n 0).map (fun _ => 0) = List.replicate n 0
    rw [List.map_const', listResize_length]
  exact ⟨h1, by rw [h1, List.length_replicate], listResize_length _ _ _, rfl⟩

/-- The first `Get` after `Clear(n)` and a list of in-bounds accumulations
returns the merged union of all accumulated ranges. -/
theorem sceneZRange_firstGet_aux (s : SceneZRange) (n : ℕ)
    (ops : List (ℕ × DrawableZRange)) (h : ∀ p ∈ ops, p.1 < n) :
    ((s.Clear n).applyAccumulates ops).map (fun t => t.Get.1)
      = some (mergeList (ops.map Prod.snd)) := by
  have hv : ∀ p ∈ ops, p.1 < (s.Clear n).threadRanges_.length := by
    intro p hp
    rw [SceneZRange.Clear_threadRanges, List.length_replicate]
    exact h p hp
  obtain ⟨s', h1, _, h3, h4, _⟩ := SceneZRange.applyAccumulates_spec ops (s.Clear n) hv
  have hdirty : s'.sceneRangeDirty_ = true := by rw [h4]; rfl
  rw [h1, Option.map_some', Option.some.injEq]
  rw [SceneZRange.Get_fst_of_dirty s' hdirty, h3, SceneZRange.Clear_threadRanges,
    mergeList_replicate_empty, mergeList, List.foldl_map]

/-- C4: after `Clear(n)` and any list of in-bounds `Accumulate` calls, the
first `Get` returns the union of all accumulated ranges, and the result is
unchanged under any reordering of the ranges, any reassignment to valid
thread slots and any valid thread count. -/
theorem sceneZRange_first_get_union
    (s₁ s₂ : SceneZRange) (n₁ n₂ : ℕ) (ops₁ ops₂ : List (ℕ × DrawableZRange))
    (h₁ : ∀ p ∈ ops₁, p.1 < n₁) (h₂ : ∀ p ∈ ops₂, p.1 < n₂)
    (hperm : List.Perm (ops₁.map Prod.snd) (ops₂.map Prod.snd)) :
    ((s₁.Clear n₁).applyAccumulates ops₁).map (fun t => t.Get.1)
        = some (mergeList (ops₁.map Prod.snd))
    ∧ ((s₁.Clear n₁).applyAccumulates ops₁).map (fun t => t.Get.1)
        = ((s₂.Clear n₂).applyAccumulates ops₂).map (fun t => t.Get.1) := by
  refine ⟨sceneZRange_firstGet_aux s₁ n₁ ops₁ h₁, ?_⟩
  rw [sceneZRange_firstGet_aux s₁ n₁ ops₁ h₁, sceneZRange_firstGet_aux s₂ n₂ ops₂ h₂,
    mergeList_perm hperm]

/-- Witness for C4 at a concrete one-accumulate history. -/
theorem sceneZRange_first_get_union_witness :
    (∀ p ∈ ([((0 : ℕ), DrawableZRange.interval 0 1)] : List (ℕ × DrawableZRange)),
        p.1 < 1)
    ∧ List.Perm
        (([((0 : ℕ), DrawableZRange.interval 0 1)] :
          List (ℕ × DrawableZRange)).map Prod.snd)
        (([((0 : ℕ), DrawableZRange.interval 0 1)] :
          List (ℕ × DrawableZRange)).map Prod.snd)
    ∧ (((SceneZRange.mk [] DrawableZRange.empty false).Clear 1).applyAccumulates
          [((0 : ℕ), DrawableZRange.interval 0 1)]).map (fun t => t.Get.1)
        = some (mergeList (([((0 : ℕ), DrawableZRange.interval 0 1)] :
            List (ℕ × DrawableZRange)).map Prod.snd)) :=
  ⟨by decide, List.Perm.refl _,
    (sceneZRange_first_get_union (SceneZRange.mk [] DrawableZRange.empty false)
      (SceneZRange.mk [] DrawableZRange.empty false) 1 1
      [((0 : ℕ), DrawableZRange.interval 0 1)] [((0 : ℕ), DrawableZRange.interval 0 1)]
      (by decide) (by decide) (List.Perm.refl _)).1⟩

/-- C5 counterexample: within one `Clear` epoch, an `Accumulate` made after a
first `Get` is not reflected by a second `Get`: the second `Get` still
returns the cached interval [0,1] although the union of the partitions at
that time is [0,3] — `Accumulate` never sets the dirty flag. -/
theorem sceneZRange_stale_get_counterexample :
    ((((SceneZRange.mk [] DrawableZRange.empty false).Clear 1).Accumulate 0
        (DrawableZRange.interval 0 1)).bind (fun c₁ =>
      ((c₁.Get.2).Accumulate 0 (DrawableZRange.interval 2 3)).map (fun c₃ =>
        (c₃.Get.1, mergeList c₃.threadRanges_))))
      = some (DrawableZRange.interval 0 1, DrawableZRange.interval 0 3)
    ∧ DrawableZRange.interval 0 1 ≠ DrawableZRange.interval 0 3 := by
  decide

/-- C5 amended: within one `Clear` epoch every `Get` returns the union of the
partitions as of the first `Get` of the epoch: the first `Get` returns the
union of the accumulations made before it, and any later `Get` returns that
same cached value regardless of accumulations in between. -/
theorem sceneZRange_get_cached_until_clear
    (s₀ : SceneZRange) (n : ℕ) (ops₁ ops₂ : List (ℕ × DrawableZRange))
    (h₁ : ∀ p ∈ ops₁, p.1 < n) (h₂ : ∀ p ∈ ops₂, p.1 < n) :
    ∃ t₁ t₂ : SceneZRange,
      (s₀.Clear n).applyAccumulates ops₁ = some t₁
      ∧ t₁.Get.1 = mergeList (ops₁.map Prod.snd)
      ∧ (t₁.Get.2).applyAccumulates ops₂ = some t₂
      ∧ t₂.Get.1 = t₁.Get.1 := by
  have hv₁ : ∀ p ∈ ops₁, p.1 < (s₀.Clear n).threadRanges_.length := by
    intro p hp
    rw [SceneZRange.Clear_threadRanges, List.length_replicate]
    exact h₁ p hp
  obtain ⟨t₁, a1, a2, a3, a4, _⟩ := SceneZRange.applyAccumulates_spec ops₁ (s₀.Clear n) hv₁
  have hdirty : t₁.sceneRangeDirty_ = true := by rw [a4]; rfl
  have hget1 : t₁.Get.1 = mergeList (ops₁.map Prod.snd) := by
    rw [SceneZRange.Get_fst_of_dirty t₁ hdirty, a3, SceneZRange.Clear_threadRanges,
      mergeList_replicate_empty, mergeList, List.foldl_map]
  have hlen2 : (t₁.Get.2).threadRanges_.length = n := by
    rw [SceneZRange.Get_snd_threadRanges, a2, SceneZRange.Clear_threadRanges,
      List.length_replicate]
  obtain ⟨t₂, b1, _, _, b4, b5⟩ := SceneZRange.applyAccumulates_spec ops₂ t₁.Get.2 (by
    intro p hp
    rw [hlen2]
    exact h₂ p hp)
  have hclean2 : t₂.sceneRangeDirty_ = false := by
    rw [b4, SceneZRange.Get_snd_clean]
  have hrange2 : t₂.sceneRange_ = t₁.Get.1 := by
    rw [b5, SceneZRange.Get_snd_sceneRange_of_dirty t₁ hdirty,
      SceneZRange.Get_fst_of_dirty t₁ hdirty]
  exact ⟨t₁, t₂, a1, hget1, b1,
    by rw [SceneZRange.Get_fst_of_clean t₂ hclean2, hrange2]⟩

/-- Witness for the amended C5 at a concrete get-accumulate-get history. -/
theorem sceneZRange_get_cached_until_clear_witness :
    (∀ p ∈ ([((0 : ℕ), DrawableZRange.interval 0 1)] : List (ℕ × DrawableZRange)),
        p.1 < 1)
    ∧ (∀ p ∈ ([((0 : ℕ), DrawableZRange.interval 2 3)] : List (ℕ × DrawableZRange)),
        p.1 < 1)
    ∧ ∃ t₁ t₂ : SceneZRange,
        ((SceneZRange.mk [] DrawableZRange.empty false).Clear 1).applyAccumulates
            [((0 : ℕ), DrawableZRange.interval 0 1)] = some t₁
        ∧ t₁.Get.1 = mergeList (([((0 : ℕ), DrawableZRange.interval 0 1)] :
            List (ℕ × DrawableZRange)).map Prod.snd)
        ∧ (t₁.Get.2).applyAccumulates [((0 : ℕ), DrawableZRange.interval 2 3)] = some t₂
        ∧ t₂.Get.1 = t₁.Get.1 :=
  ⟨by decide, by decide,
    sceneZRange_get_cached_until_clear (SceneZRange.mk [] DrawableZRange.empty false) 1
      [((0 : ℕ), DrawableZRange.interval 0 1)] [((0 : ℕ), DrawableZRange.interval 2 3)]
      (by decide) (by decide)⟩

/-- C10: from any state reached by `Clear(n)` followed by in-epoch calls, an
`Accumulate` stays in bounds exactly when its thread index is below the `n`
of the most recent `Clear`, and under that precondition the out-of-bounds
branch is unreachable for a whole list of further calls. -/
theorem sceneZRange_accumulate_inbounds (s₀ : SceneZRange) (n : ℕ)
    (ops ops₂ : List SceneZRangeCall) (s' : SceneZRange) (ti : ℕ) (r : DrawableZRange)
    (hrun : (s₀.Clear n).runCalls ops = some s')
    (hv : ∀ c ∈ ops₂, SceneZRangeCall.inBounds n c = true) :
    ((s'.Accumulate ti r).isSome = true ↔ ti < n)
    ∧ (s'.runCalls ops₂).isSome = true := by
  have hlen : s'.threadRanges_.length = n := by
    rw [SceneZRange.runCalls_length ops _ _ hrun, SceneZRange.Clear_threadRanges,
      List.length_replicate]
  constructor
  · by_cases h : ti < n
    · simp [SceneZRange.Accumulate, hlen, h]
    · simp [SceneZRange.Accumulate, hlen, h]
  · obtain ⟨s'', hs, _⟩ := SceneZRange.runCalls_spec ops₂ s' (by
      intro ti' r' hm
      have hb := hv _ hm
      rw [hlen]
      simpa [SceneZRangeCall.inBounds] using hb)
    rw [hs]
    rfl

/-- Witness for C10 at a concrete epoch with one accumulate and one get. -/
theorem sceneZRange_accumulate_inbounds_witness :
    ((SceneZRange.mk [] DrawableZRange.empty false).Clear 1).runCalls
        [SceneZRangeCall.accumulate 0 (DrawableZRange.interval 5 6), SceneZRangeCall.get]
      = some (SceneZRange.mk [DrawableZRange.interval 5 6] (DrawableZRange.interval 5 6)
          false)
    ∧ (∀ c ∈ [SceneZRangeCall.accumulate 0 (DrawableZRange.interval 7 8)],
        SceneZRangeCall.inBounds 1 c = true)
    ∧ (((SceneZRange.mk [DrawableZRange.interval 5 6] (DrawableZRange.interval 5 6)
          false).Accumulate 1 (DrawableZRange.interval 9 10)).isSome = true ↔ 1 < 1)
    ∧ ((SceneZRange.mk [DrawableZRange.interval 5 6] (DrawableZRange.interval 5 6)
          false).runCalls
        [SceneZRangeCall.accumulate 0 (DrawableZRange.interval 7 8)]).isSome = true := by
  refine ⟨by decide, by decide, ?_⟩
  exact sceneZRange_accumulate_inbounds (SceneZRange.mk [] DrawableZRange.empty false) 1
    [SceneZRangeCall.accumulate 0 (DrawableZRange.interval 5 6), SceneZRangeCall.get]
    [SceneZRangeCall.accumulate 0 (DrawableZRange.interval 7 8)]
    (SceneZRange.mk [DrawableZRange.interval 5 6] (DrawableZRange.interval 5 6) false)
    1 (DrawableZRange.interval 9 10) (by decide) (by decide)

end Urho3D
